import Mathlib

/-!
Verification of the hypercoil sentry/action event system.

Shallow embedding of `hypercoil/engine/action.py`: each `SentryAction`
subclass's `propagate` body is translated into a pure Lean function over an
explicit sentry-state record.  Loss values are modelled as exact rationals
(`ℚ`); the `float('nan')` sentinel appended by `ArchiveLoss` for names
absent from the epoch's staging dictionary is modelled by a dedicated
constructor of `LossVal`.  Python dictionaries (`epoch_buffer`, `archive`,
the `'DATA'` payload) are modelled as association lists looked up by key.
-/

/-- A value stored in a sentry's `archive`: either an exact number or the
`float('nan')` sentinel that `ArchiveLoss.propagate` appends for a tracked
name with no staged mean. -/
inductive LossVal where
  | num (x : ℚ)
  | nan
deriving DecidableEq, Repr

/-- What a sentry is listening to: an `Epochs` instance or any other
sentry.  `ModuleReport._register_trigger` is written to check
`isinstance(i, Epochs)` over `sentry.listening` (though the provided
module never binds `Epochs`; see `ModuleReport.registerTrigger`). -/
inductive ListeningKind where
  | epochs
  | other
deriving DecidableEq, Repr

/-- Modelled from the spec: the mutable state a `Sentry` owns (the
`Sentry` base class lives in `hypercoil/engine/sentry.py`, outside the
provided sources).  Per the spec's data model, a sentry owns `listeners`
(modelled by identifiers), `listening`, `actions` (modelled by action
identifiers), and the task-specific fields `nu`, `epoch_buffer`,
`archive` and `batched`.  The `release()` capability invoked by
`BatchRelease` is modelled by a counter of invocations. -/
structure Sentry where
  nu : ℚ
  listeners : List ℕ
  listening : List ListeningKind
  actions : List ℕ
  epoch_buffer : List (String × List ℚ)
  archive : List (String × List LossVal)
  batched : ℤ
  releaseCalls : ℕ
deriving DecidableEq, Repr

/-- Embeds `UpdateMultiplier.propagate`: `sentry.nu = received['NU']`.  The
message's `'NU'` entry is the explicit argument `nuVal`. -/
def UpdateMultiplier.propagate (nuVal : ℚ) (s : Sentry) : Sentry :=
  { s with nu := nuVal }

/-- Modelled from the spec: appending into a per-name list of a sentry's
`epoch_buffer` mapping (the container semantics of the `Sentry` base
class are outside the provided sources; the spec states `RecordLoss`
"appends the received loss value ... into per-name lists in
`epoch_buffer`").  Appends to the entry for `name`, creating it when
absent. -/
def bufAppend (buf : List (String × List ℚ)) (name : String) (v : ℚ) :
    List (String × List ℚ) :=
  match buf with
  | [] => [(name, [v])]
  | (n, l) :: rest =>
    if n = name then (n, l ++ [v]) :: rest
    else (n, l) :: bufAppend rest name v

/-- Embeds `RecordLoss.propagate`: appends `received['LOSS']` to
`epoch_buffer[name]` and `received['LOSS'] / received['NU']` to
`epoch_buffer[name ++ "_norm"]`.  The message's `'NAME'`, `'LOSS'` and
`'NU'` entries are the explicit arguments. -/
def RecordLoss.propagate (name : String) (loss nuVal : ℚ) (s : Sentry) :
    Sentry :=
  { s with
    epoch_buffer :=
      bufAppend (bufAppend s.epoch_buffer name loss)
        (name ++ "_norm") (loss / nuVal) }

/-- Computes `sum(record) / len(record)` over a buffered record. -/
def recordMean (record : List ℚ) : ℚ :=
  record.sum / record.length

/-- The first loop of `ArchiveLoss.propagate`: walks `epoch_buffer`,
skipping empty records, staging each non-empty record's mean under its
name and resetting that record to `[]`.  Returns the staging mapping and
the updated buffer. -/
def stageBuffer : List (String × List ℚ) →
    List (String × ℚ) × List (String × List ℚ)
  | [] => ([], [])
  | (loss, record) :: rest =>
    let p := stageBuffer rest
    if record.length = 0 then (p.1, (loss, record) :: p.2)
    else ((loss, recordMean record) :: p.1, (loss, []) :: p.2)

/-- Embeds `staging.get(loss, float('nan'))`. -/
def stagingGet (staging : List (String × ℚ)) (loss : String) : LossVal :=
  match staging.lookup loss with
  | some m => LossVal.num m
  | none => LossVal.nan

/-- Embeds `ArchiveLoss.propagate`: stages the mean of every non-empty buffered
record and resets those records; if nothing was staged, returns early;
otherwise appends to each already-archived name its staged mean, or NaN
when that name staged nothing this epoch. -/
def ArchiveLoss.propagate (s : Sentry) : Sentry :=
  let p := stageBuffer s.epoch_buffer
  if p.1.length = 0 then { s with epoch_buffer := p.2 }
  else
    { s with
      epoch_buffer := p.2,
      archive := s.archive.map (fun e => (e.1, e.2 ++ [stagingGet p.1 e.1])) }

/-- Embeds `CountBatches.propagate`: `sentry.batched += received['BATCH']`. -/
def CountBatches.propagate (count : ℤ) (s : Sentry) : Sentry :=
  { s with batched := s.batched + count }

/-- Embeds `BatchRelease.propagate`: if `sentry.batched >= self.batch_size`,
invoke `sentry.release()` and reset `sentry.batched` to 0. -/
def BatchRelease.propagate (batch_size : ℤ) (s : Sentry) : Sentry :=
  if s.batched ≥ batch_size then
    { s with releaseCalls := s.releaseCalls + 1, batched := 0 }
  else s

/-- An exception raised by `ModuleReport._register_trigger`: the
`ValueError` it raises deliberately, or the `NameError` Python raises
when the comprehension body evaluates the name `Epochs`, which
`action.py` never imports or defines. -/
inductive RegError where
  | valueError
  | nameError
deriving DecidableEq, Repr

/-- Embeds `ModuleReport._register_trigger` as the provided source
actually executes.  `action.py` binds only `torch` and `SentryAction`,
so the name `Epochs` in
`[isinstance(i, Epochs) for i in sentry.listening]` is unbound: for any
non-empty `listening` the comprehension body runs and raises
`NameError` before the check, leaving the sentry unchanged.  Only for
empty `listening` is the comprehension `[]` (its body never runs), so
`not any([])` holds and the code removes the action from
`sentry.actions` and raises `ValueError`.  Returns the resulting
sentry state together with the raised error, if any. -/
def ModuleReport.registerTrigger (actionId : ℕ) (s : Sentry) :
    Sentry × Option RegError :=
  match s.listening with
  | [] => ({ s with actions := s.actions.erase actionId },
           some RegError.valueError)
  | _ :: _ => (s, some RegError.nameError)

/-- A Python exception raised by the sentry's report call: `TypeError`
(save repeated or invalid as argument) or anything else. -/
inductive PyExc where
  | typeError
  | other
deriving DecidableEq, Repr

/-- The save path `ModuleReport.propagate` constructs when `save_root`
is set: `f'\x7bself.save_root\x7d_epoch-\x7bepoch\x7d\x7bself.save_format\x7d'`. -/
def ModuleReport.savePath (save_root : String) (save_format : String)
    (epoch : ℕ) : String :=
  save_root ++ "_epoch-" ++ toString epoch ++ save_format

/-- Embeds `ModuleReport.propagate`.  The sentry's report capability is the
oracle `call`, taking `some save` for `sentry(*args, save=save, **kwargs)`
and `none` for the retry `sentry(*args, **kwargs)` without the save
argument.  Returns the ordered trace of calls issued together with the
uncaught exception, if any: fires only when
`received['EPOCH'] % report_interval == 0`; a `TypeError` from the call
with the save argument is caught and the call retried without it. -/
def ModuleReport.propagate (report_interval : ℕ)
    (save_root : Option String) (save_format : String)
    (call : Option (Option String) → Except PyExc Unit) (epoch : ℕ) :
    List (Option (Option String)) × Option PyExc :=
  if epoch % report_interval = 0 then
    let save : Option String :=
      match save_root with
      | some root => some (ModuleReport.savePath root save_format epoch)
      | none => none
    match call (some save) with
    | Except.ok _ => ([some save], none)
    | Except.error PyExc.typeError =>
      match call none with
      | Except.ok _ => ([some save, none], none)
      | Except.error e2 => ([some save, none], some e2)
    | Except.error PyExc.other => ([some save], some PyExc.other)
  else ([], none)

/-- Embeds `Convey.propagate`: `input = received['DATA'].get(self.receive_line)`;
if `input is not None`, call `sentry(input, line=self.transmit_line)`.
`data` models the `'DATA'` dictionary (a Python key may itself be `None`,
and a stored value may be `None`).  Returns the sentry (untouched by the
body) and the call issued, if any. -/
def Convey.propagate {α : Type} (receive_line transmit_line : Option String)
    (data : List (Option String × Option α)) (s : Sentry) :
    Sentry × Option (α × Option String) :=
  match data.lookup receive_line with
  | some (some v) => (s, some (v, transmit_line))
  | some none => (s, none)
  | none => (s, none)

/-- A listener sentry as seen by
`PropagateMultiplierFromRecursiveTransform`: an identity and its current
multiplier `nu`. -/
structure Listener where
  id : ℕ
  nu : ℚ
deriving DecidableEq, Repr

/-- Embeds `PropagateMultiplierFromRecursiveTransform.propagate`: for each
listener `s` in iteration order, set the message's `'NU'` entry to
`self.transform(s.nu)` — reading `s.nu` at the moment of that listener's
delivery — and call `s._listen(self.message)`.  The external `_listen`
effect on the listener is the oracle `listen`.  Returns the updated
listeners and the ordered delivery trace of `(listener id, 'NU' value)`
pairs. -/
def PropagateMultiplierFromRecursiveTransform.propagate
    (transform : ℚ → ℚ) (listen : Listener → ℚ → Listener) :
    List Listener → List Listener × List (ℕ × ℚ)
  | [] => ([], [])
  | s :: rest =>
    let nuMsg := transform s.nu
    let s' := listen s nuMsg
    let p := PropagateMultiplierFromRecursiveTransform.propagate
      transform listen rest
    (s' :: p.1, (s.id, nuMsg) :: p.2)

def defaultSentry : Sentry := ⟨0, [], [], [], [], [], 0, 0⟩

def cexSentryC1 : Sentry :=
  { defaultSentry with epoch_buffer := [("mse", [1, 2, 3])], archive := [] }

def witSentryC1 : Sentry :=
  { defaultSentry with
    epoch_buffer := [("mse", [1, 2, 3])], archive := [("mse", [])] }

def callTypeErr : Option (Option String) → Except PyExc Unit
  | some _ => Except.error PyExc.typeError
  | none => Except.ok ()

def exceptErr : Except PyExc Unit → Option PyExc
  | Except.ok _ => none
  | Except.error e => some e

def witSentryC8 : Sentry :=
  { defaultSentry with epoch_buffer := [("a", [1])], archive := [("b", [])] }

def witSentryC9 : Sentry :=
  { defaultSentry with
    epoch_buffer := [("a", []), ("b", [])]
    archive := [("a", [LossVal.num 3])] }

def witSentryC4a : Sentry :=
  { defaultSentry with listening := [ListeningKind.other], actions := [0] }

def witSentryC4b : Sentry :=
  { defaultSentry with listening := [ListeningKind.epochs], actions := [0] }

def witSentryC4empty : Sentry := { defaultSentry with actions := [0] }

theorem lookup_bufAppend_self (buf : List (String × List ℚ)) (n : String) (v : ℚ) :
    (bufAppend buf n v).lookup n = some (((buf.lookup n).getD []) ++ [v]) := by
  induction buf with
  | nil => simp [bufAppend, List.lookup]
  | cons hd tl ih =>
    obtain ⟨k, l⟩ := hd
    by_cases h : k = n
    · subst h
      simp [bufAppend, List.lookup]
    · have hb : (n == k) = false := beq_eq_false_iff_ne.mpr (Ne.symm h)
      simp [bufAppend, List.lookup, h, hb, ih]

theorem lookup_bufAppend_ne (buf : List (String × List ℚ)) (m n : String) (v : ℚ)
    (h : m ≠ n) :
    (bufAppend buf n v).lookup m = buf.lookup m := by
  have hmn : (m == n) = false := beq_eq_false_iff_ne.mpr h
  induction buf with
  | nil => simp [bufAppend, List.lookup, hmn]
  | cons hd tl ih =>
    obtain ⟨k, l⟩ := hd
    by_cases hk : k = n
    · subst hk
      simp [bufAppend, List.lookup, hmn]
    · by_cases hm : m = k
      · subst hm
        simp [bufAppend, List.lookup, hk]
      · have hb : (m == k) = false := beq_eq_false_iff_ne.mpr hm
        simp [bufAppend, List.lookup, hk, hb, ih]

theorem lookup_stageBuffer_buf (buf : List (String × List ℚ)) (n : String) :
    ((stageBuffer buf).2).lookup n = (buf.lookup n).map (fun _ => ([] : List ℚ)) := by
  induction buf with
  | nil => simp [stageBuffer, List.lookup]
  | cons hd tl ih =>
    obtain ⟨k, l⟩ := hd
    by_cases hm : n = k
    · subst hm
      by_cases hl : l.length = 0
      · simp [stageBuffer, hl, List.lookup, List.length_eq_zero.mp hl]
      · simp [stageBuffer, hl, List.lookup]
    · have hb : (n == k) = false := beq_eq_false_iff_ne.mpr hm
      by_cases hl : l.length = 0
      · simp [stageBuffer, hl, List.lookup, hb, ih]
      · simp [stageBuffer, hl, List.lookup, hb, ih]

theorem stageBuffer_fst_ne_nil (buf : List (String × List ℚ)) (n : String)
    (r : List ℚ) (hlook : buf.lookup n = some r) (hne : r ≠ []) :
    (stageBuffer buf).1 ≠ [] := by
  induction buf with
  | nil => simp [List.lookup] at hlook
  | cons hd tl ih =>
    obtain ⟨k, l⟩ := hd
    by_cases hm : n = k
    · subst hm
      simp [List.lookup] at hlook
      subst hlook
      have : ¬ l.length = 0 := by
        simpa [List.length_eq_zero] using hne
      simp [stageBuffer, this]
    · have hb : (n == k) = false := beq_eq_false_iff_ne.mpr hm
      simp [List.lookup, hb] at hlook
      have h2 := ih hlook
      by_cases hl : l.length = 0
      · simpa [stageBuffer, hl] using h2
      · simp [stageBuffer, hl]

theorem stageBuffer_all_empty (buf : List (String × List ℚ))
    (h : ∀ p ∈ buf, p.2 = ([] : List ℚ)) :
    stageBuffer buf = ([], buf) := by
  induction buf with
  | nil => simp [stageBuffer]
  | cons hd tl ih =>
    obtain ⟨k, l⟩ := hd
    have hl : l = [] := h (k, l) (by simp)
    subst hl
    have := ih (fun p hp => h p (by simp [hp]))
    simp [stageBuffer, this]

theorem lookup_archive_map (l : List (String × List LossVal))
    (staging : List (String × ℚ)) (n : String) :
    ((l.map (fun e => (e.1, e.2 ++ [stagingGet staging e.1]))).lookup n)
      = (l.lookup n).map (fun ar => ar ++ [stagingGet staging n]) := by
  induction l with
  | nil => simp [List.lookup]
  | cons hd tl ih =>
    obtain ⟨k, b⟩ := hd
    by_cases hm : n = k
    · subst hm
      simp [List.lookup]
    · have hb : (n == k) = false := beq_eq_false_iff_ne.mpr hm
      simp [List.lookup, hb, ih]

theorem archive_map_keys (l : List (String × List LossVal))
    (staging : List (String × ℚ)) :
    (l.map (fun e => (e.1, e.2 ++ [stagingGet staging e.1]))).map Prod.fst
      = l.map Prod.fst := by
  induction l with
  | nil => rfl
  | cons hd tl ih => simp [ih]

/-- C1 counterexample: a sentry whose `epoch_buffer` equals exactly
`[("mse", [1, 2, 3])]` but whose `archive` does not already track
`"mse"` gains no `archive` entry for `"mse"` at all after
`ArchiveLoss.propagate`, refuting the claim's universally quantified
"archive gains exactly one new entry equal to 2.0". -/
theorem archiveLoss_mse_untracked_cex :
    cexSentryC1.epoch_buffer = [("mse", [1, 2, 3])] ∧
    (ArchiveLoss.propagate cexSentryC1).archive.lookup "mse" = none ∧
    (ArchiveLoss.propagate cexSentryC1).archive.lookup "mse"
      ≠ some [LossVal.num 2] := by
  refine ⟨rfl, ?_, ?_⟩ <;>
    simp [ArchiveLoss.propagate, cexSentryC1, defaultSentry, stageBuffer,
      List.lookup]

/-- C1 (amended): for every sentry whose `epoch_buffer` equals
`[("mse", [1.0, 2.0, 3.0])]` and whose `archive` already tracks
`"mse"`, after `ArchiveLoss.propagate` runs on an `'EPOCH'` message,
`archive["mse"]` gains exactly one new entry equal to `2` (the mean of
the buffered values) and `epoch_buffer["mse"]` becomes the empty
list. -/
theorem archiveLoss_mse_tracked_mean (s : Sentry) (l : List LossVal)
    (hb : s.epoch_buffer = [("mse", [1, 2, 3])])
    (ha : s.archive.lookup "mse" = some l) :
    (ArchiveLoss.propagate s).archive.lookup "mse"
      = some (l ++ [LossVal.num 2]) ∧
    (ArchiveLoss.propagate s).epoch_buffer.lookup "mse" = some [] := by
  have hstage : stageBuffer s.epoch_buffer
      = ([("mse", recordMean [1, 2, 3])], [("mse", [])]) := by
    rw [hb]; simp [stageBuffer]
  have hmean : recordMean [1, 2, 3] = 2 := by
    norm_num [recordMean]
  unfold ArchiveLoss.propagate
  rw [hstage]
  constructor
  · rw [if_neg (by simp)]
    simp only [lookup_archive_map, ha]
    simp [stagingGet, List.lookup, hmean]
  · rw [if_neg (by simp)]
    simp [List.lookup]

/-- C1 witness. -/
theorem archiveLoss_mse_tracked_mean_witness :
    (ArchiveLoss.propagate witSentryC1).archive.lookup "mse"
      = some [LossVal.num 2] ∧
    (ArchiveLoss.propagate witSentryC1).epoch_buffer.lookup "mse"
      = some [] := by
  have h := archiveLoss_mse_tracked_mean witSentryC1 [] (by decide) (by decide)
  simpa using h

/-- C2: starting from `batched = 0`, three messages of `{'BATCH': 4}`,
each running `CountBatches.propagate` then `BatchRelease.propagate`
with `batch_size = 10`, invoke `release()` exactly once — only after
the third message — and leave `batched` equal to 0. -/
theorem countBatches_batchRelease_scenario (s : Sentry)
    (h : s.batched = 0) :
    ((BatchRelease.propagate 10 (CountBatches.propagate 4 s)).releaseCalls
        = s.releaseCalls) ∧
    ((BatchRelease.propagate 10 (CountBatches.propagate 4
        (BatchRelease.propagate 10
          (CountBatches.propagate 4 s)))).releaseCalls
        = s.releaseCalls) ∧
    ((BatchRelease.propagate 10 (CountBatches.propagate 4
        (BatchRelease.propagate 10 (CountBatches.propagate 4
          (BatchRelease.propagate 10
            (CountBatches.propagate 4 s)))))).releaseCalls
        = s.releaseCalls + 1) ∧
    ((BatchRelease.propagate 10 (CountBatches.propagate 4
        (BatchRelease.propagate 10 (CountBatches.propagate 4
          (BatchRelease.propagate 10
            (CountBatches.propagate 4 s)))))).batched = 0) := by
  norm_num [CountBatches.propagate, BatchRelease.propagate, h]

/-- C2 witness. -/
theorem countBatches_batchRelease_scenario_witness :
    ((BatchRelease.propagate 10
        (CountBatches.propagate 4 defaultSentry)).releaseCalls
        = defaultSentry.releaseCalls) ∧
    ((BatchRelease.propagate 10 (CountBatches.propagate 4
        (BatchRelease.propagate 10
          (CountBatches.propagate 4 defaultSentry)))).releaseCalls
        = defaultSentry.releaseCalls) ∧
    ((BatchRelease.propagate 10 (CountBatches.propagate 4
        (BatchRelease.propagate 10 (CountBatches.propagate 4
          (BatchRelease.propagate 10
            (CountBatches.propagate 4 defaultSentry)))))).releaseCalls
        = defaultSentry.releaseCalls + 1) ∧
    ((BatchRelease.propagate 10 (CountBatches.propagate 4
        (BatchRelease.propagate 10 (CountBatches.propagate 4
          (BatchRelease.propagate 10
            (CountBatches.propagate 4 defaultSentry)))))).batched = 0) :=
  countBatches_batchRelease_scenario defaultSentry (by decide)

/-- C3: for every sentry, `RecordLoss.propagate` on the message
`NAME = "x"`, `LOSS = 4`, `NU = 2` appends `4` to `epoch_buffer["x"]`
and `2` (the loss divided by `NU`) to `epoch_buffer["x_norm"]`, and
appends nothing to any other buffer entry. -/
theorem recordLoss_scenario (s : Sentry) :
    ((RecordLoss.propagate "x" 4 2 s).epoch_buffer.lookup "x"
      = some (((s.epoch_buffer.lookup "x").getD []) ++ [4])) ∧
    ((RecordLoss.propagate "x" 4 2 s).epoch_buffer.lookup "x_norm"
      = some (((s.epoch_buffer.lookup "x_norm").getD []) ++ [2])) ∧
    (∀ n, n ≠ "x" → n ≠ "x_norm" →
      (RecordLoss.propagate "x" 4 2 s).epoch_buffer.lookup n
        = s.epoch_buffer.lookup n) := by
  have hxn : ("x" ++ "_norm" : String) = "x_norm" := rfl
  have hdiv : (4 : ℚ) / 2 = 2 := by norm_num
  have hbuf : (RecordLoss.propagate "x" 4 2 s).epoch_buffer
      = bufAppend (bufAppend s.epoch_buffer "x" 4) "x_norm" 2 := by
    simp [RecordLoss.propagate, hxn, hdiv]
  refine ⟨?_, ?_, ?_⟩
  · rw [hbuf,
      lookup_bufAppend_ne _ _ _ _ (by decide : ("x" : String) ≠ "x_norm")]
    exact lookup_bufAppend_self _ _ _
  · rw [hbuf, lookup_bufAppend_self,
      lookup_bufAppend_ne _ _ _ _ (by decide : ("x_norm" : String) ≠ "x")]
  · intro n hx hxnorm
    rw [hbuf, lookup_bufAppend_ne _ _ _ _ hxnorm,
      lookup_bufAppend_ne _ _ _ _ hx]

/-- C3 witness. -/
theorem recordLoss_scenario_witness :
    ((RecordLoss.propagate "x" 4 2 defaultSentry).epoch_buffer.lookup "x"
      = some (((defaultSentry.epoch_buffer.lookup "x").getD []) ++ [4])) ∧
    ((RecordLoss.propagate "x" 4 2 defaultSentry).epoch_buffer.lookup "x_norm"
      = some (((defaultSentry.epoch_buffer.lookup "x_norm").getD []) ++ [2])) ∧
    ((RecordLoss.propagate "x" 4 2 defaultSentry).epoch_buffer.lookup "y"
      = defaultSentry.epoch_buffer.lookup "y") :=
  ⟨(recordLoss_scenario defaultSentry).1,
   (recordLoss_scenario defaultSentry).2.1,
   (recordLoss_scenario defaultSentry).2.2 "y" (by decide) (by decide)⟩

/-- C4 (code evaluated at the failing input): with the provided
`action.py`, `ModuleReport._register_trigger` contradicts the claim.
A sentry listening to an `Epochs` instance gets `NameError` (the name
`Epochs` is unbound in the module), not a completed registration; a
sentry listening only to non-`Epochs` sentries also gets `NameError`
with its action left in place, not the claimed removal plus
`ValueError`; only a sentry listening to nothing reaches the
remove-and-raise-`ValueError` path. -/
theorem moduleReport_registerTrigger_code_bug :
    ((ModuleReport.registerTrigger 0 witSentryC4b).2
        = some RegError.nameError ∧
     (ModuleReport.registerTrigger 0 witSentryC4b).1 = witSentryC4b) ∧
    ((ModuleReport.registerTrigger 0 witSentryC4a).2
        = some RegError.nameError ∧
     (ModuleReport.registerTrigger 0 witSentryC4a).1.actions
        = witSentryC4a.actions) ∧
    ((ModuleReport.registerTrigger 0 witSentryC4empty).2
        = some RegError.valueError ∧
     (ModuleReport.registerTrigger 0 witSentryC4empty).1.actions
        = witSentryC4empty.actions.erase 0) := by
  decide

/-- C5: for every `'EPOCH'` message, `ModuleReport.propagate` calls the
sentry's report side effect if and only if
`received['EPOCH'] % report_interval == 0`; when it fires and the call
with the constructed save argument raises `TypeError`, it retries the
same call without the save argument instead of propagating that
exception. -/
theorem moduleReport_propagate_spec (ri : ℕ) (root : Option String)
    (fmt : String) (call : Option (Option String) → Except PyExc Unit)
    (epoch : ℕ) (hri : 0 < ri) :
    ((ModuleReport.propagate ri root fmt call epoch).1 ≠ [] ↔
      epoch % ri = 0) ∧
    (epoch % ri = 0 →
      call (some (root.map fun r => ModuleReport.savePath r fmt epoch))
          = Except.error PyExc.typeError →
      ((ModuleReport.propagate ri root fmt call epoch).1
          = [some (root.map fun r => ModuleReport.savePath r fmt epoch),
             none] ∧
       (ModuleReport.propagate ri root fmt call epoch).2
          = exceptErr (call none))) := by
  have _hri := hri
  have hdef : (match root with
      | some r => some (ModuleReport.savePath r fmt epoch)
      | none => (none : Option String))
      = root.map fun r => ModuleReport.savePath r fmt epoch := by
    cases root <;> rfl
  unfold ModuleReport.propagate
  rw [hdef]
  by_cases hm : epoch % ri = 0
  · rw [if_pos hm]
    refine ⟨?_, ?_⟩
    · cases hcall :
        call (some (root.map fun r => ModuleReport.savePath r fmt epoch)) with
      | ok u => simp [hcall, hm]
      | error e =>
        cases e with
        | typeError =>
          cases hcall2 : call none with
          | ok u => simp [hcall, hcall2, hm]
          | error e2 => simp [hcall, hcall2, hm]
        | other => simp [hcall, hm]
    · intro _ hcall
      cases hcall2 : call none with
      | ok u => simp [hcall, hcall2, exceptErr]
      | error e2 => simp [hcall, hcall2, exceptErr]
  · rw [if_neg hm]
    exact ⟨by simp [hm], fun h _ => absurd h hm⟩

/-- C5 witness. -/
theorem moduleReport_propagate_spec_witness :
    ((ModuleReport.propagate 2 (some "r") ".png" callTypeErr 4).1 ≠ []
      ↔ 4 % 2 = 0) ∧
    ((ModuleReport.propagate 2 (some "r") ".png" callTypeErr 4).1
        = [some ((some "r").map fun r => ModuleReport.savePath r ".png" 4),
           none] ∧
     (ModuleReport.propagate 2 (some "r") ".png" callTypeErr 4).2
        = exceptErr (callTypeErr none)) := by
  have h := moduleReport_propagate_spec 2 (some "r") ".png" callTypeErr 4
    (by decide)
  exact ⟨h.1, h.2 (by decide) rfl⟩

/-- C6: `PropagateMultiplierFromRecursiveTransform.propagate` delivers
to each listener, individually and in iteration order, a message whose
`'NU'` entry equals `transform` applied to that listener's own current
`nu` — not a single shared value computed once for all listeners. -/
theorem recursiveTransform_per_listener (transform : ℚ → ℚ)
    (listen : Listener → ℚ → Listener) (ls : List Listener) :
    (PropagateMultiplierFromRecursiveTransform.propagate
        transform listen ls).2
      = ls.map fun s => (s.id, transform s.nu) := by
  induction ls with
  | nil => rfl
  | cons s rest ih =>
    simp [PropagateMultiplierFromRecursiveTransform.propagate, ih]

/-- C7: `UpdateMultiplier.propagate` sets `sentry.nu` to the message's
`'NU'` entry and leaves every other field of the sentry unchanged. -/
theorem updateMultiplier_frame (nuVal : ℚ) (s : Sentry) :
    (UpdateMultiplier.propagate nuVal s).nu = nuVal ∧
    (UpdateMultiplier.propagate nuVal s).listeners = s.listeners ∧
    (UpdateMultiplier.propagate nuVal s).listening = s.listening ∧
    (UpdateMultiplier.propagate nuVal s).actions = s.actions ∧
    (UpdateMultiplier.propagate nuVal s).epoch_buffer = s.epoch_buffer ∧
    (UpdateMultiplier.propagate nuVal s).archive = s.archive ∧
    (UpdateMultiplier.propagate nuVal s).batched = s.batched ∧
    (UpdateMultiplier.propagate nuVal s).releaseCalls = s.releaseCalls :=
  ⟨rfl, rfl, rfl, rfl, rfl, rfl, rfl, rfl⟩

/-- C8: `ArchiveLoss.propagate` never adds a key to `archive`: the key
list is identical before and after; a buffered loss name absent from
`archive` has its buffer entry reset to empty while its computed mean is
silently discarded (no archive entry appears for it). -/
theorem archiveLoss_no_new_keys (s : Sentry) :
    ((ArchiveLoss.propagate s).archive.map Prod.fst
      = s.archive.map Prod.fst) ∧
    (∀ name r, s.epoch_buffer.lookup name = some r → r ≠ [] →
      s.archive.lookup name = none →
      ((ArchiveLoss.propagate s).epoch_buffer.lookup name
          = some ([] : List ℚ) ∧
       (ArchiveLoss.propagate s).archive.lookup name = none)) := by
  constructor
  · unfold ArchiveLoss.propagate
    by_cases h : (stageBuffer s.epoch_buffer).1.length = 0
    · rw [if_pos h]
    · rw [if_neg h]
      exact archive_map_keys s.archive (stageBuffer s.epoch_buffer).1
  · intro name r hlook hne harch
    have hstage := stageBuffer_fst_ne_nil s.epoch_buffer name r hlook hne
    have hlen : ¬ (stageBuffer s.epoch_buffer).1.length = 0 := by
      simpa [List.length_eq_zero] using hstage
    constructor
    · have hb : (ArchiveLoss.propagate s).epoch_buffer
          = (stageBuffer s.epoch_buffer).2 := by
        unfold ArchiveLoss.propagate
        rw [if_neg hlen]
      rw [hb, lookup_stageBuffer_buf, hlook]
      rfl
    · have hb : (ArchiveLoss.propagate s).archive
          = s.archive.map fun e =>
              (e.1, e.2 ++ [stagingGet (stageBuffer s.epoch_buffer).1 e.1]) := by
        unfold ArchiveLoss.propagate
        rw [if_neg hlen]
      rw [hb, lookup_archive_map, harch]
      rfl

/-- C8 witness. -/
theorem archiveLoss_no_new_keys_witness :
    ((ArchiveLoss.propagate witSentryC8).archive.map Prod.fst
      = witSentryC8.archive.map Prod.fst) ∧
    ((ArchiveLoss.propagate witSentryC8).epoch_buffer.lookup "a"
        = some ([] : List ℚ) ∧
     (ArchiveLoss.propagate witSentryC8).archive.lookup "a" = none) :=
  ⟨(archiveLoss_no_new_keys witSentryC8).1,
   (archiveLoss_no_new_keys witSentryC8).2 "a" [1] (by decide) (by decide)
     (by decide)⟩

/-- C9: if every list in `epoch_buffer` is empty when an `'EPOCH'`
message arrives, `ArchiveLoss.propagate` returns early and leaves
`archive` entirely unchanged: nothing (no NaN, no other entry) is
appended to any archived name. -/
theorem archiveLoss_empty_buffer (s : Sentry)
    (h : ∀ p ∈ s.epoch_buffer, p.2 = ([] : List ℚ)) :
    (ArchiveLoss.propagate s).archive = s.archive ∧
    (ArchiveLoss.propagate s).epoch_buffer = s.epoch_buffer := by
  have hs := stageBuffer_all_empty s.epoch_buffer h
  unfold ArchiveLoss.propagate
  rw [hs]
  exact ⟨rfl, rfl⟩

/-- C9 witness. -/
theorem archiveLoss_empty_buffer_witness :
    (ArchiveLoss.propagate witSentryC9).archive = witSentryC9.archive ∧
    (ArchiveLoss.propagate witSentryC9).epoch_buffer
      = witSentryC9.epoch_buffer :=
  archiveLoss_empty_buffer witSentryC9 (by decide)

/-- C10: `Convey.propagate` does not invoke the sentry's transmit
capability and performs no state change when `received['DATA']` has no
entry under `receive_line` or the entry is `None`; it invokes the
sentry with the retrieved input and `line = transmit_line` exactly when
the entry exists and is not `None`. -/
theorem convey_spec {α : Type} (rl tl : Option String)
    (data : List (Option String × Option α)) (s : Sentry) :
    (data.lookup rl = none → Convey.propagate rl tl data s = (s, none)) ∧
    (data.lookup rl = some none →
      Convey.propagate rl tl data s = (s, none)) ∧
    (∀ v, data.lookup rl = some (some v) →
      Convey.propagate rl tl data s = (s, some (v, tl))) := by
  unfold Convey.propagate
  refine ⟨fun h => ?_, fun h => ?_, fun v h => ?_⟩ <;> rw [h]

/-- C10 witness. -/
theorem convey_spec_witness :
    (Convey.propagate (some "a") (some "t")
      ([] : List (Option String × Option ℕ)) defaultSentry
        = (defaultSentry, none)) ∧
    (Convey.propagate (some "a") (some "t")
      [(some "a", (none : Option ℕ))] defaultSentry
        = (defaultSentry, none)) ∧
    (Convey.propagate (some "a") (some "t")
      [(some "a", some (5 : ℕ))] defaultSentry
        = (defaultSentry, some (5, some "t"))) :=
  ⟨(convey_spec (some "a") (some "t") [] defaultSentry).1 (by decide),
   (convey_spec (some "a") (some "t") [(some "a", none)] defaultSentry).2.1
     (by decide),
   (convey_spec (some "a") (some "t") [(some "a", some 5)] defaultSentry).2.2
     5 (by decide)⟩
